import Mathlib

/-!
Verification development for the sqlWrapper repository (src/sqlWrapper.py).

Python strings are modelled as their sequence of Unicode code points:
as `String` where only whole-string equality matters, and as `List Nat`
(one entry per code point / byte) where character-level reasoning is
needed.  Fallible Python code is modelled with `Except String`, the
error string standing for the raised exception.
-/

namespace SqlWrapper

/-! ### Byte-string helpers -/

/-- Code points of a string literal, as a list of naturals. -/
def strB (s : String) : List Nat := s.data.map Char.toNat

/-- Remove an expected leading byte sequence; `none` when the input does
not start with it. -/
def dropPrefixB : List Nat → List Nat → Option (List Nat)
  | [], l => some l
  | _ :: _, [] => none
  | p :: ps, b :: bs => if p = b then dropPrefixB ps bs else none

theorem dropPrefixB_append (p l : List Nat) : dropPrefixB p (p ++ l) = some l := by
  induction p with
  | nil => rfl
  | cons a as ih => simp [dropPrefixB, ih]

theorem takeWhile_split {p : Nat → Bool} {xs rest : List Nat}
    (h1 : ∀ x ∈ xs, p x = true)
    (h2 : ∀ b, rest.head? = some b → p b = false) :
    (xs ++ rest).takeWhile p = xs ∧ (xs ++ rest).dropWhile p = rest := by
  induction xs with
  | nil =>
    simp only [List.nil_append]
    cases rest with
    | nil => simp
    | cons b bs =>
      have hb := h2 b rfl
      constructor
      · simp [List.takeWhile_cons, hb]
      · simp [List.dropWhile_cons, hb]
  | cons a as ih =>
    have ha : p a = true := h1 a (by simp)
    have ih2 := ih (fun x hx => h1 x (by simp [hx]))
    constructor
    · simp [List.takeWhile_cons, ha, ih2.1]
    · simp [List.dropWhile_cons, ha, ih2.2]

/-! ### Decimal rendering of naturals (Python str of an int) -/

/-- Decimal digits of a natural number, most significant first, with an
explicit structural fuel (always sufficient when fuel exceeds the number). -/
def natDigitsF : Nat → Nat → List Nat
  | 0, _ => []
  | f + 1, n => if n < 10 then [n] else natDigitsF f (n / 10) ++ [n % 10]

/-- Decimal digits of a natural number, most significant first. -/
def natDigits (n : Nat) : List Nat := natDigitsF (n + 1) n

/-- Decimal digit characters (ASCII codes) of a natural number. -/
def natBytes (n : Nat) : List Nat := (natDigits n).map (fun d => d + 48)

theorem natDigitsF_eq (f g n : Nat) (hf : n < f) (hg : n < g) :
    natDigitsF f n = natDigitsF g n := by
  induction f generalizing g n with
  | zero => omega
  | succ f ih =>
    cases g with
    | zero => omega
    | succ g =>
      by_cases h10 : n < 10
      · simp [natDigitsF, h10]
      · have hdiv : n / 10 < n := Nat.div_lt_self (by omega) (by omega)
        simp only [natDigitsF, h10, if_false]
        rw [ih g (n / 10) (by omega) (by omega)]

theorem natDigits_unfold (n : Nat) :
    natDigits n = if n < 10 then [n] else natDigits (n / 10) ++ [n % 10] := by
  by_cases h10 : n < 10
  · simp [natDigits, natDigitsF, h10]
  · have hdiv : n / 10 < n := Nat.div_lt_self (by omega) (by omega)
    have h1 : natDigitsF (n + 1) n = natDigitsF n (n / 10) ++ [n % 10] := by
      simp [natDigitsF, h10]
    show natDigitsF (n + 1) n = _
    rw [h1, natDigitsF_eq n (n / 10 + 1) (n / 10) hdiv (Nat.lt_succ_self _), if_neg h10]
    rfl

theorem natDigits_val (n : Nat) :
    ∀ a : Nat, (natDigits n).foldl (fun acc d => 10 * acc + d) a
      = a * 10 ^ (natDigits n).length + n := by
  induction n using Nat.strong_induction_on with
  | _ n ih =>
    intro a
    rw [natDigits_unfold n]
    by_cases h10 : n < 10
    · simp [h10, List.foldl]
      ring
    · have hdiv : n / 10 < n := Nat.div_lt_self (by omega) (by omega)
      simp only [h10, if_false, List.foldl_append, List.length_append, List.length_cons,
        List.length_nil, List.foldl]
      rw [ih (n / 10) hdiv a]
      have hmod : 10 * (n / 10) + n % 10 = n := by omega
      have hpow : 10 ^ ((natDigits (n / 10)).length + (0 + 1))
          = 10 ^ (natDigits (n / 10)).length * 10 := by
        rw [pow_succ]
      rw [hpow]
      ring_nf
      omega

theorem natDigits_lt10 (n : Nat) : ∀ d ∈ natDigits n, d < 10 := by
  induction n using Nat.strong_induction_on with
  | _ n ih =>
    rw [natDigits_unfold n]
    by_cases h10 : n < 10
    · simp [h10]
    · have hdiv : n / 10 < n := Nat.div_lt_self (by omega) (by omega)
      simp only [h10, if_false]
      intro d hd
      rcases List.mem_append.mp hd with h | h
      · exact ih (n / 10) hdiv d h
      · simp at h
        omega

theorem natDigits_ne_nil (n : Nat) : natDigits n ≠ [] := by
  rw [natDigits_unfold n]
  by_cases h10 : n < 10 <;> simp [h10]

theorem natDigits_inj {m n : Nat} (h : natDigits m = natDigits n) : m = n := by
  have hm := natDigits_val m 0
  have hn := natDigits_val n 0
  rw [h] at hm
  omega

theorem natBytes_inj {m n : Nat} (h : natBytes m = natBytes n) : m = n := by
  apply natDigits_inj
  have hinj : Function.Injective (fun d : Nat => d + 48) := by
    intro a b hab
    simpa using hab
  exact List.map_injective_iff.mpr hinj h

theorem natBytes_ne_nil (n : Nat) : natBytes n ≠ [] := by
  simp [natBytes, natDigits_ne_nil]

/-- Every character of a rendered number is an ASCII digit. -/
def isDigitB (b : Nat) : Bool := decide (48 ≤ b) && decide (b ≤ 57)

theorem natBytes_digits (n : Nat) : ∀ b ∈ natBytes n, isDigitB b = true := by
  intro b hb
  simp only [natBytes, List.mem_map] at hb
  obtain ⟨d, hd, rfl⟩ := hb
  have := natDigits_lt10 n d hd
  simp [isDigitB]
  omega

/-! ### Parsing a decimal number back out of a byte list -/

/-- Value of a list of ASCII digit characters. -/
def digitsValB (l : List Nat) : Nat := l.foldl (fun acc b => 10 * acc + (b - 48)) 0

/-- Read a maximal run of ASCII digits; fails when the input does not
start with a digit. -/
def parseNatB (l : List Nat) : Option (Nat × List Nat) :=
  match l.takeWhile isDigitB with
  | [] => none
  | ds => some (digitsValB ds, l.dropWhile isDigitB)

theorem digitsValB_natBytes (n : Nat) : digitsValB (natBytes n) = n := by
  unfold digitsValB natBytes
  rw [List.foldl_map]
  have : (fun (acc : Nat) (d : Nat) => 10 * acc + (d + 48 - 48)) =
      (fun (acc : Nat) (d : Nat) => 10 * acc + d) := by
    funext acc d
    omega
  rw [this]
  have := natDigits_val n 0
  omega

theorem parseNatB_render (n : Nat) {rest : List Nat}
    (h : ∀ b, rest.head? = some b → isDigitB b = false) :
    parseNatB (natBytes n ++ rest) = some (n, rest) := by
  have hsplit := takeWhile_split (p := isDigitB) (natBytes_digits n) h
  unfold parseNatB
  rw [hsplit.1, hsplit.2]
  have hne := natBytes_ne_nil n
  cases hb : natBytes n with
  | nil => exact absurd hb hne
  | cons x xs =>
    rw [← hb]
    simp only [hb]
    rw [← hb, digitsValB_natBytes]

theorem parseNatB_shrink {l r : List Nat} {n : Nat}
    (h : parseNatB l = some (n, r)) : r.length < l.length := by
  unfold parseNatB at h
  cases htw : l.takeWhile isDigitB with
  | nil => rw [htw] at h; exact absurd h (by simp)
  | cons x xs =>
    rw [htw] at h
    have h2 : (digitsValB (x :: xs), l.dropWhile isDigitB) = (n, r) := Option.some.inj h
    have hr : r = l.dropWhile isDigitB := ((Prod.mk.injEq _ _ _ _).mp h2).2.symm
    have hlen : l.length = (l.takeWhile isDigitB).length + (l.dropWhile isDigitB).length := by
      conv_lhs => rw [← List.takeWhile_append_dropWhile (p := isDigitB) (l := l)]
      rw [List.length_append]
    rw [htw] at hlen
    rw [hr]
    simp only [List.length_cons] at hlen
    omega

/-! ### Python tuple rendering of a shape, and its parser

The npy header stores the array shape as the text of a Python tuple:
shape () renders as "()", (5,) as "(5,)", (2, 3) as "(2, 3)".
Code points: 40 = open paren, 41 = close paren, 44 = comma, 32 = space. -/

/-- Comma-space separated rendering of the entries of a nonempty shape. -/
def renderMulti : List Nat → List Nat
  | [] => []
  | [n] => natBytes n
  | n :: rest => natBytes n ++ [44, 32] ++ renderMulti rest

/-- Rendering of a shape as the text of a Python tuple. -/
def renderShape : List Nat → List Nat
  | [] => [40, 41]
  | [n] => 40 :: (natBytes n ++ [44, 41])
  | l => 40 :: (renderMulti l ++ [41])

/-- Parse the comma-separated entries of a tuple body up to and including
the closing paren.  The fuel argument bounds the recursion; every step
consumes at least one input byte, so fuel equal to the input length is
always sufficient. -/
def parseElemsF : Nat → List Nat → Option (List Nat × List Nat)
  | 0, _ => none
  | f + 1, l =>
    match parseNatB l with
    | none => none
    | some (n, r) =>
      match r with
      | 44 :: 41 :: rest => some ([n], rest)
      | 41 :: rest => some ([n], rest)
      | 44 :: 32 :: rest =>
        match parseElemsF f rest with
        | none => none
        | some (ns, r2) => some (n :: ns, r2)
      | _ => none

/-- Parse the text of a Python tuple of naturals. -/
def parseShape : List Nat → Option (List Nat × List Nat)
  | 40 :: b :: rest => if b = 41 then some ([], rest) else parseElemsF (b :: rest).length (b :: rest)
  | _ => none

theorem natBytes_head_digit (n : Nat) {b : Nat} {bs : List Nat}
    (h : natBytes n = b :: bs) : isDigitB b = true :=
  natBytes_digits n b (h ▸ List.mem_cons_self b bs)

theorem parseNatB_render_cons (n : Nat) {c : Nat} {rest : List Nat}
    (hc : isDigitB c = false) :
    parseNatB (natBytes n ++ c :: rest) = some (n, c :: rest) :=
  parseNatB_render n (by
    intro b hb
    have hbc : c = b := by simpa using hb
    rw [← hbc]
    exact hc)

theorem renderMulti_length : ∀ l : List Nat, l ≠ [] → l.length ≤ (renderMulti l).length := by
  intro l
  induction l with
  | nil => simp
  | cons n l2 ih =>
    intro _
    have hb : 1 ≤ (natBytes n).length := by
      have hne := natBytes_ne_nil n
      cases h : natBytes n with
      | nil => exact absurd h hne
      | cons => simp
    cases l2 with
    | nil =>
      show 1 ≤ (natBytes n).length
      exact hb
    | cons m l3 =>
      have h2 := ih (by simp)
      show (n :: m :: l3).length ≤ (natBytes n ++ [44, 32] ++ renderMulti (m :: l3)).length
      simp only [List.length_cons, List.length_append] at h2 ⊢
      omega

theorem parseElemsF_single (n : Nat) (f : Nat) (suffix : List Nat) :
    parseElemsF (f + 1) (natBytes n ++ 44 :: 41 :: suffix) = some ([n], suffix) := by
  unfold parseElemsF
  rw [parseNatB_render_cons n (by decide)]

theorem parseElemsF_render : ∀ (l : List Nat), l ≠ [] → ∀ (f : Nat), l.length ≤ f →
    ∀ (suffix : List Nat), parseElemsF f (renderMulti l ++ 41 :: suffix) = some (l, suffix) := by
  intro l
  induction l with
  | nil => intro h; exact absurd rfl h
  | cons n l2 ih =>
    intro _ f hf suffix
    cases l2 with
    | nil =>
      cases f with
      | zero => simp at hf
      | succ f =>
        show parseElemsF (f + 1) (natBytes n ++ 41 :: suffix) = _
        unfold parseElemsF
        rw [parseNatB_render_cons n (by decide)]
    | cons m l3 =>
      cases f with
      | zero => simp at hf
      | succ f =>
        have hassoc : renderMulti (n :: m :: l3) ++ 41 :: suffix
            = natBytes n ++ 44 :: 32 :: (renderMulti (m :: l3) ++ 41 :: suffix) := by
          show natBytes n ++ [44, 32] ++ renderMulti (m :: l3) ++ 41 :: suffix = _
          simp
        rw [hassoc]
        unfold parseElemsF
        rw [parseNatB_render_cons n (by decide)]
        have hlen : (m :: l3).length ≤ f := by
          simp only [List.length_cons] at hf ⊢
          omega
        have hihh := ih (by simp) f hlen suffix
        show (match parseElemsF f (renderMulti (m :: l3) ++ 41 :: suffix) with
          | none => none
          | some (ns, r2) => some (n :: ns, r2)) = some (n :: m :: l3, suffix)
        rw [hihh]

theorem parseShape_render (s : List Nat) (suffix : List Nat) :
    parseShape (renderShape s ++ suffix) = some (s, suffix) := by
  have hdig41 : ∀ b : Nat, isDigitB b = true → ¬ b = 41 := by
    intro b hb hcon
    rw [hcon] at hb
    exact absurd hb (by decide)
  match s with
  | [] =>
    show parseShape (40 :: 41 :: suffix) = _
    simp [parseShape]
  | [n] =>
    obtain ⟨b, bs, hb⟩ : ∃ b bs, natBytes n = b :: bs := by
      cases h : natBytes n with
      | nil => exact absurd h (natBytes_ne_nil n)
      | cons b bs => exact ⟨b, bs, rfl⟩
    have hdig := natBytes_head_digit n hb
    have hform : renderShape [n] ++ suffix = 40 :: b :: (bs ++ 44 :: 41 :: suffix) := by
      show (40 :: (natBytes n ++ [44, 41])) ++ suffix = _
      rw [hb]
      simp
    rw [hform]
    have hstep : parseShape (40 :: b :: (bs ++ 44 :: 41 :: suffix))
        = if b = 41 then some ([], bs ++ 44 :: 41 :: suffix)
          else parseElemsF (b :: (bs ++ 44 :: 41 :: suffix)).length
            (b :: (bs ++ 44 :: 41 :: suffix)) := rfl
    rw [hstep, if_neg (hdig41 b hdig)]
    have hback : b :: (bs ++ 44 :: 41 :: suffix) = natBytes n ++ 44 :: 41 :: suffix := by
      rw [hb]
      simp
    rw [hback]
    obtain ⟨f, hf⟩ : ∃ f, (natBytes n ++ 44 :: 41 :: suffix).length = f + 1 := by
      rw [hb]
      exact ⟨(bs ++ 44 :: 41 :: suffix).length, by simp⟩
    rw [hf]
    exact parseElemsF_single n f suffix
  | a :: m :: rest =>
    obtain ⟨b, bs, hb⟩ : ∃ b bs, natBytes a = b :: bs := by
      cases h : natBytes a with
      | nil => exact absurd h (natBytes_ne_nil a)
      | cons b bs => exact ⟨b, bs, rfl⟩
    have hdig := natBytes_head_digit a hb
    have hmulti : renderMulti (a :: m :: rest) = b :: (bs ++ 44 :: 32 :: renderMulti (m :: rest)) := by
      show natBytes a ++ [44, 32] ++ renderMulti (m :: rest) = _
      rw [hb]
      simp
    have hform : renderShape (a :: m :: rest) ++ suffix
        = 40 :: b :: (bs ++ 44 :: 32 :: renderMulti (m :: rest) ++ 41 :: suffix) := by
      show (40 :: (renderMulti (a :: m :: rest) ++ [41])) ++ suffix = _
      rw [hmulti]
      simp
    rw [hform]
    have hstep : parseShape (40 :: b :: (bs ++ 44 :: 32 :: renderMulti (m :: rest) ++ 41 :: suffix))
        = if b = 41 then some ([], bs ++ 44 :: 32 :: renderMulti (m :: rest) ++ 41 :: suffix)
          else parseElemsF (b :: (bs ++ 44 :: 32 :: renderMulti (m :: rest) ++ 41 :: suffix)).length
            (b :: (bs ++ 44 :: 32 :: renderMulti (m :: rest) ++ 41 :: suffix)) := rfl
    rw [hstep, if_neg (hdig41 b hdig)]
    have hback : b :: (bs ++ 44 :: 32 :: renderMulti (m :: rest) ++ 41 :: suffix)
        = renderMulti (a :: m :: rest) ++ 41 :: suffix := by
      rw [hmulti]
      simp
    rw [hback]
    apply parseElemsF_render (a :: m :: rest) (by simp)
    have h1 : (renderMulti (a :: m :: rest) ++ 41 :: suffix).length
        = (renderMulti (a :: m :: rest)).length + suffix.length + 1 := by
      simp
      omega
    have h2 := renderMulti_length (a :: m :: rest) (by simp)
    omega

/-! ### ArrayCodec (spec section 4.1)

Modelled from the spec: the embedded-array encoder and decoder of the
repository are `iodb._adapt_array` (src/sqlWrapper.py lines 252-257) and
`iodb._typecast_array` (lines 259-269), which delegate the byte format to
the `np.save` / `np.load` pair of numpy (library code, not part of src/).  The
format below follows the description of the ArrayBlob in the spec: a fixed
magic + version prefix, a textual descriptor block (dtype, shape, element
order flag) padded with spaces to a 64-byte alignment boundary and closed
by a newline, then the raw element bytes - i.e. the npy version 1.0
layout.  The two-byte little-endian header-length field bounds the header
at 65536 bytes. -/

/-- Element dtypes the codec supports. -/
inductive Dtype where
  | b1
  | i1
  | i2
  | i4
  | i8
  | f2
  | f4
  | f8
deriving DecidableEq

/-- Descriptor string of a dtype, as code points. -/
def Dtype.descrB : Dtype → List Nat
  | .b1 => strB "|b1"
  | .i1 => strB "|i1"
  | .i2 => strB "<i2"
  | .i4 => strB "<i4"
  | .i8 => strB "<i8"
  | .f2 => strB "<f2"
  | .f4 => strB "<f4"
  | .f8 => strB "<f8"

/-- Bytes per element of a dtype. -/
def Dtype.itemsize : Dtype → Nat
  | .b1 => 1
  | .i1 => 1
  | .i2 => 2
  | .i4 => 4
  | .i8 => 8
  | .f2 => 2
  | .f4 => 4
  | .f8 => 8

/-- Recover a dtype from its descriptor; `none` marks a descriptor the
codec cannot materialize (UnsupportedDtypeError). -/
def Dtype.ofDescrB (l : List Nat) : Option Dtype :=
  if l = strB "|b1" then some .b1
  else if l = strB "|i1" then some .i1
  else if l = strB "<i2" then some .i2
  else if l = strB "<i4" then some .i4
  else if l = strB "<i8" then some .i8
  else if l = strB "<f2" then some .f2
  else if l = strB "<f4" then some .f4
  else if l = strB "<f8" then some .f8
  else none

theorem Dtype.ofDescrB_descrB (d : Dtype) : Dtype.ofDescrB d.descrB = some d := by
  cases d <;> rfl

theorem Dtype.descrB_no_quote (d : Dtype) : ∀ b ∈ d.descrB, (b != 39) = true := by
  cases d <;> decide

/-- A numpy array value: dtype, element order flag, shape, and the raw
element bytes (length = itemsize * product of the shape). -/
structure NpArray where
  descr : Dtype
  fortranOrder : Bool
  shape : List Nat
  data : List Nat
deriving DecidableEq

/-- Magic prefix and format version of the byte stream: 0x93, "NUMPY", 1, 0. -/
def NPY_MAGIC : List Nat := [147, 78, 85, 77, 80, 89, 1, 0]

/-- Textual descriptor block (a Python dict literal). -/
def npyDict (x : NpArray) : List Nat :=
  strB "\x7b\x27descr\x27: \x27" ++ x.descr.descrB
    ++ strB "\x27, \x27fortran_order\x27: "
    ++ (if x.fortranOrder then strB "True" else strB "False")
    ++ strB ", \x27shape\x27: " ++ renderShape x.shape ++ strB ", \x7d"

/-- Descriptor block padded with spaces and closed by a newline so that
the total stream position of the element data is a multiple of 64. -/
def npyHeader (x : NpArray) : List Nat :=
  npyDict x
    ++ List.replicate ((64 - (10 + (npyDict x).length + 1) % 64) % 64) 32
    ++ [10]

/-- Encoder: magic + version, two-byte little-endian header length,
header, raw element bytes.  Models the byte stream `_adapt_array`
produces via `np.save`. -/
def npyEncode (x : NpArray) : List Nat :=
  NPY_MAGIC
    ++ [(npyHeader x).length % 256, (npyHeader x).length / 256 % 256]
    ++ npyHeader x
    ++ x.data

/-- Shared message for a malformed header. -/
def FMT_ERR : String := "FormatError: malformed npy stream"

/-- Parse the literal True or False. -/
def parsePyBoolB (l : List Nat) : Option (Bool × List Nat) :=
  match dropPrefixB (strB "True") l with
  | some r => some (true, r)
  | none =>
    match dropPrefixB (strB "False") l with
    | some r => some (false, r)
    | none => none

/-- Decode the descriptor block, then copy the declared number of element
bytes out of the body. -/
def npyDecodeBody (hdr body : List Nat) : Except String NpArray :=
  match dropPrefixB (strB "\x7b\x27descr\x27: \x27") hdr with
  | none => .error FMT_ERR
  | some h1 =>
    match Dtype.ofDescrB (h1.takeWhile (fun b => b != 39)) with
    | none => .error "UnsupportedDtypeError: unsupported descr"
    | some dt =>
      match dropPrefixB (strB "\x27, \x27fortran_order\x27: ")
          (h1.dropWhile (fun b => b != 39)) with
      | none => .error FMT_ERR
      | some h2 =>
        match parsePyBoolB h2 with
        | none => .error FMT_ERR
        | some (fo, h3) =>
          match dropPrefixB (strB ", \x27shape\x27: ") h3 with
          | none => .error FMT_ERR
          | some h4 =>
            match parseShape h4 with
            | none => .error FMT_ERR
            | some (shape, h5) =>
              match dropPrefixB (strB ", \x7d") h5 with
              | none => .error FMT_ERR
              | some _ =>
                if body.length < dt.itemsize * shape.prod then
                  .error "FormatError: unexpected end of data"
                else
                  .ok ⟨dt, fo, shape, body.take (dt.itemsize * shape.prod)⟩

/-- Decoder: validates magic + version, reads the two-byte header length,
then hands header and body to `npyDecodeBody`.  Models `np.load` as used
by `_typecast_array`. -/
def npyDecode (l : List Nat) : Except String NpArray :=
  match dropPrefixB NPY_MAGIC l with
  | none => .error FMT_ERR
  | some (b0 :: b1 :: r2) => npyDecodeBody (r2.take (b0 + 256 * b1)) (r2.drop (b0 + 256 * b1))
  | some _ => .error FMT_ERR

theorem parsePyBoolB_render (fo : Bool) (rest : List Nat) :
    parsePyBoolB ((if fo then strB "True" else strB "False") ++ rest) = some (fo, rest) := by
  cases fo
  · show parsePyBoolB (strB "False" ++ rest) = _
    unfold parsePyBoolB
    have h1 : dropPrefixB (strB "True") (strB "False" ++ rest) = none := by
      show dropPrefixB (84 :: strB "rue") (70 :: (strB "alse" ++ rest)) = none
      unfold dropPrefixB
      simp
    rw [h1, dropPrefixB_append]
  · show parsePyBoolB (strB "True" ++ rest) = _
    unfold parsePyBoolB
    rw [dropPrefixB_append]

theorem descr_split (d : Dtype) (rest : List Nat) (hhead : rest.head? = some 39) :
    ((d.descrB ++ rest).takeWhile (fun b => b != 39) = d.descrB) ∧
    ((d.descrB ++ rest).dropWhile (fun b => b != 39) = rest) := by
  apply takeWhile_split (Dtype.descrB_no_quote d)
  intro b hb
  rw [hhead] at hb
  cases hb
  rfl

theorem npyHeader_norm (x : NpArray) : ∃ padn, npyHeader x
    = strB "\x7b\x27descr\x27: \x27" ++ (x.descr.descrB
      ++ (strB "\x27, \x27fortran_order\x27: "
      ++ ((if x.fortranOrder then strB "True" else strB "False")
      ++ (strB ", \x27shape\x27: "
      ++ (renderShape x.shape
      ++ (strB ", \x7d" ++ (List.replicate padn 32 ++ [10]))))))) := by
  refine ⟨(64 - (10 + (npyDict x).length + 1) % 64) % 64, ?_⟩
  unfold npyHeader npyDict
  simp [List.append_assoc]

theorem npyDecode_stream (hdr data : List Nat) (hsmall : hdr.length < 65536) :
    npyDecode (NPY_MAGIC ++ [hdr.length % 256, hdr.length / 256 % 256] ++ hdr ++ data)
      = npyDecodeBody hdr data := by
  have hlen : hdr.length % 256 + 256 * (hdr.length / 256 % 256) = hdr.length := by
    have hdiv : hdr.length / 256 % 256 = hdr.length / 256 := Nat.mod_eq_of_lt (by omega)
    rw [hdiv]
    exact Nat.mod_add_div _ _
  have hform : NPY_MAGIC ++ [hdr.length % 256, hdr.length / 256 % 256] ++ hdr ++ data
      = NPY_MAGIC ++ (hdr.length % 256 :: hdr.length / 256 % 256 :: (hdr ++ data)) := by
    simp
  rw [hform]
  unfold npyDecode
  rw [dropPrefixB_append]
  show npyDecodeBody ((hdr ++ data).take (hdr.length % 256 + 256 * (hdr.length / 256 % 256)))
      ((hdr ++ data).drop (hdr.length % 256 + 256 * (hdr.length / 256 % 256))) = _
  rw [hlen, List.take_left, List.drop_left]

theorem npyDecodeBody_header (x : NpArray)
    (hdata : x.data.length = x.descr.itemsize * x.shape.prod) :
    npyDecodeBody (npyHeader x) x.data = .ok x := by
  obtain ⟨padn, hH⟩ := npyHeader_norm x
  have hd := descr_split x.descr
    (strB "\x27, \x27fortran_order\x27: "
      ++ ((if x.fortranOrder then strB "True" else strB "False")
      ++ (strB ", \x27shape\x27: "
      ++ (renderShape x.shape
      ++ (strB ", \x7d" ++ (List.replicate padn 32 ++ [10])))))) (by rfl)
  rw [hH]
  simp only [npyDecodeBody, dropPrefixB_append, hd.1, hd.2, Dtype.ofDescrB_descrB,
    parsePyBoolB_render, parseShape_render]
  rw [if_neg (by rw [hdata]; exact lt_irrefl _)]
  rw [← hdata, List.take_length]

theorem npy_roundtrip (x : NpArray)
    (hdata : x.data.length = x.descr.itemsize * x.shape.prod)
    (hsmall : (npyHeader x).length < 65536) :
    npyDecode (npyEncode x) = .ok x := by
  have henc : npyEncode x = NPY_MAGIC
      ++ [(npyHeader x).length % 256, (npyHeader x).length / 256 % 256]
      ++ npyHeader x ++ x.data := rfl
  rw [henc, npyDecode_stream (npyHeader x) x.data hsmall, npyDecodeBody_header x hdata]

/-! ### The registered adapter and converter (src/sqlWrapper.py 252-269)

`iodb._adapt_array` writes the array with `np.save` into a buffer and
binds the bytes of the buffer; `iodb._typecast_array` maps a NULL column to
None when the driver supplies a cursor (postgres), otherwise feeds the
bytes to `np.load`.  The `BINARY(value, cur)` conversion on the postgres
path is byte-identical and modelled as the identity. -/

def adapt_array (arr : NpArray) : List Nat := npyEncode arr

def typecast_array (value : Option (List Nat)) (cur : Bool) : Except String (Option NpArray) :=
  match value, cur with
  | none, true => .ok none
  | none, false => .error "TypeError: a bytes-like object is required, not NoneType"
  | some bytes, _ => (npyDecode bytes).map some

/-! ### Python runtime values seen by the type inference engine

The constructors mirror the runtime categories `iodb.detectType`
(src/sqlWrapper.py 480-542) distinguishes with `isinstance`.  Two Python
facts are reflected in the modelling:
* `bool` is a subclass of `int`, which is why the source checks `bool`
  first; the constructors here are disjoint, and the match arms keep the
  dispatch outcome of the source for each category.
* `ndarray_ext` (line 104) is a plain class that does NOT subclass
  `np.ndarray`, so `isinstance(value, np.ndarray)` is False for wrapped
  arrays: a `PyVal.ndarrayExt` value is not admitted by the `np.ndarray`
  branch and falls through to the final else.
Numeric payloads of the float kinds are omitted because the code never
inspects them; `str`-rendering of floats, arrays and functions is
abstracted to fixed placeholders (only their runtime type reaches the
claims). -/

inductive PyVal where
  | bool (b : Bool)
  | int (n : Int)
  | npInt64 (n : Int)
  | npInt32 (n : Int)
  | npInt16 (n : Int)
  | npInt8 (n : Int)
  | float
  | npFloat32
  | npFloat16
  | str (s : String)
  | ndarray (a : NpArray)
  | ndarrayExt (a : NpArray)
  | pyFunc
  | list (xs : List PyVal)
  | tuple (xs : List PyVal)
  | pyNone

/-- Python str(type(value)). -/
def pyTypeStr : PyVal → String
  | .bool _ => "<class \x27bool\x27>"
  | .int _ => "<class \x27int\x27>"
  | .npInt64 _ => "<class \x27numpy.int64\x27>"
  | .npInt32 _ => "<class \x27numpy.int32\x27>"
  | .npInt16 _ => "<class \x27numpy.int16\x27>"
  | .npInt8 _ => "<class \x27numpy.int8\x27>"
  | .float => "<class \x27float\x27>"
  | .npFloat32 => "<class \x27numpy.float32\x27>"
  | .npFloat16 => "<class \x27numpy.float16\x27>"
  | .str _ => "<class \x27str\x27>"
  | .ndarray _ => "<class \x27numpy.ndarray\x27>"
  | .ndarrayExt _ => "<class \x27sqlWrapper.ndarray_ext\x27>"
  | .pyFunc => "<class \x27function\x27>"
  | .list _ => "<class \x27list\x27>"
  | .tuple _ => "<class \x27tuple\x27>"
  | .pyNone => "<class \x27NoneType\x27>"

/-- Decimal string of a natural number. -/
def natStr (n : Nat) : String := ⟨(natDigits n).map (fun d => Char.ofNat (48 + d))⟩

/-- Python str of an int. -/
def intStr : Int → String
  | .ofNat n => natStr n
  | .negSucc m => "-" ++ natStr (m + 1)

mutual

/-- Python repr(value), as used for elements of a printed sequence. -/
def pyRepr : PyVal → String
  | .bool true => "True"
  | .bool false => "False"
  | .int n => intStr n
  | .npInt64 n => intStr n
  | .npInt32 n => intStr n
  | .npInt16 n => intStr n
  | .npInt8 n => intStr n
  | .float => "<float>"
  | .npFloat32 => "<float32>"
  | .npFloat16 => "<float16>"
  | .str s => "\x27" ++ s ++ "\x27"
  | .ndarray _ => "<ndarray>"
  | .ndarrayExt _ => "<ndarray_ext>"
  | .pyFunc => "<function>"
  | .list xs => "[" ++ pyReprSeq xs ++ "]"
  | .tuple [x] => "(" ++ pyRepr x ++ ",)"
  | .tuple xs => "(" ++ pyReprSeq xs ++ ")"
  | .pyNone => "None"

/-- Comma-space separated reprs of a sequence of values. -/
def pyReprSeq : List PyVal → String
  | [] => ""
  | [x] => pyRepr x
  | x :: xs => pyRepr x ++ ", " ++ pyReprSeq xs

end

/-- Python str(value): identical to repr except on strings, which print
without quotes at top level. -/
def pyStr : PyVal → String
  | .str s => s
  | v => pyRepr v

/-- Message of the TypeError `detectType` raises on an unclassifiable
value (both raise sites build the same text): it names the runtime type
and the offending value. -/
def unrecognizedMsg (v : PyVal) : String :=
  "iodb::detectType: Unrecognized type \x27" ++ pyTypeStr v ++ "\x27\nWith value: " ++ pyStr v

/-! ### Session configuration (iodb.__init__, src/sqlWrapper.py 122-190)

Only the driver-dependent attributes the claims touch are modelled.
`__init__` with an unknown driver prints a message and leaves the
attributes unset (later uses would raise AttributeError); that case is
modelled as `none`.  With storage extern or mixed, line 189 evaluates
`os.path.exists(fullpath)` BEFORE the readOnly guard of the same
condition, and `import os` is commented out (line 51): construction of
an extern or mixed session always raises NameError, for read-only
sessions too. -/

structure IodbCfg where
  driver : String
  storage : String
  spath : String
  loadZipped : Bool
  readOnly : Bool
  arrayType : String
  arrayTypeExt : String
  rowid : String
deriving DecidableEq

/-- Constructor-time configuration, mirroring `iodb.__init__`.  The
driver branch (sqlite or postgre attribute values; for postgres the
embedded array type is BYTEA only for the intern storage mode and the
external reference type is always TEXT) runs first; then the storage
block raises NameError on the unbound name os for extern and mixed
sessions (line 189). -/
def iodbInit (driver storage spath : String) (loadZipped readOnly : Bool) :
    Except String (Option IodbCfg) :=
  let cfg : Option IodbCfg :=
    if driver = "sqlite" then
      some ⟨driver, storage, spath, loadZipped, readOnly, "ARRAY", "ARRAY_EXT", "rowid"⟩
    else if driver = "postgre" then
      some ⟨driver, storage, spath, loadZipped, readOnly,
        if storage = "intern" then "BYTEA" else "TEXT", "TEXT", "oid"⟩
    else none
  if storage = "extern" ∨ storage = "mixed" then
    .error "NameError: name \x27os\x27 is not defined"
  else
    .ok cfg

/-- Python `type(value) == ndarray_ext` (the test on line 521). -/
def typeIsNdarrayExt : PyVal → Bool
  | .ndarrayExt _ => true
  | _ => false

/-- Shallow embedding of `iodb.detectType` (src/sqlWrapper.py 480-542).
The result is `Except` (raised TypeError) of `Option String`: Python
returns None when a numeric branch matches but the dbdriver string is
neither "sqlite" nor "postgre".  Match arms follow the isinstance
cascade; each runtime category hits exactly one branch. -/
def detectType (cfg : IodbCfg) (value : PyVal) (dbdriver : String) :
    Except String (Option String) :=
  match value with
  | .bool _ =>
    if dbdriver = "sqlite" then .ok (some "INTEGER")
    else if dbdriver = "postgre" then .ok (some "BOOL")
    else .ok none
  | .int _ => .ok (some "INTEGER")
  | .npInt32 _ => .ok (some "INTEGER")
  | .npInt16 _ => .ok (some "INTEGER")
  | .npInt64 _ =>
    if dbdriver = "sqlite" then .ok (some "INTEGER")
    else if dbdriver = "postgre" then .ok (some "BIGINT")
    else .ok none
  | .npInt8 _ =>
    if dbdriver = "sqlite" then .ok (some "INTEGER")
    else if dbdriver = "postgre" then .ok (some "SMALLINT")
    else .ok none
  | .str s =>
    if s = "ndarray" then .ok (some cfg.arrayType)
    else if s = "ndarray_ext" then .ok (some cfg.arrayTypeExt)
    else .ok (some "TEXT")
  | .float =>
    if dbdriver = "sqlite" then .ok (some "REAL")
    else if dbdriver = "postgre" then .ok (some "DOUBLE PRECISION")
    else .ok none
  | .npFloat32 => .ok (some "REAL")
  | .npFloat16 => .ok (some "REAL")
  | .ndarray a =>
    if typeIsNdarrayExt (.ndarray a) then .ok (some cfg.arrayTypeExt)
    else .ok (some cfg.arrayType)
  | .pyFunc => .ok (some "TEXT")
  | .list [v] => detectType cfg v dbdriver
  | .list xs => .error (unrecognizedMsg (.list xs))
  | .tuple [v] => detectType cfg v dbdriver
  | .tuple xs => .error (unrecognizedMsg (.tuple xs))
  | v => .error (unrecognizedMsg v)

/-! ### Key sorting (np.sort on strings) and the statement builder

`iodb.appendType` (src/sqlWrapper.py 544-558) sorts the column names
with `np.sort(list(keys))` when `sortBefore` holds; numpy sorts Python
strings lexicographically by code points, which is modelled here by an
insertion sort over the code-point-lexicographic order. -/

/-- Lexicographic order on code point lists. -/
def natLexLe : List Nat → List Nat → Bool
  | [], _ => true
  | _ :: _, [] => false
  | a :: as, b :: bs => if a < b then true else if b < a then false else natLexLe as bs

/-- Python string comparison: lexicographic by code points. -/
def strLeB (a b : String) : Bool := natLexLe (strB a) (strB b)

/-- Insert into a sorted list of strings. -/
def insSorted (x : String) : List String → List String
  | [] => [x]
  | y :: ys => if strLeB x y then x :: y :: ys else y :: insSorted x ys

/-- Ascending sort of the column names, the model of np.sort. -/
def sortK : List String → List String
  | [] => []
  | x :: xs => insSorted x (sortK xs)

theorem natLexLe_total : ∀ a b : List Nat, natLexLe a b = true ∨ natLexLe b a = true := by
  intro a
  induction a with
  | nil => intro b; left; rfl
  | cons x xs ih =>
    intro b
    cases b with
    | nil => right; rfl
    | cons y ys =>
      simp only [natLexLe]
      rcases Nat.lt_trichotomy x y with h | h | h
      · left; rw [if_pos h]
      · subst h
        simp only [lt_self_iff_false, if_false]
        exact ih ys
      · right; rw [if_pos h]

theorem natLexLe_antisymm : ∀ a b : List Nat,
    natLexLe a b = true → natLexLe b a = true → a = b := by
  intro a
  induction a with
  | nil =>
    intro b _ hba
    cases b with
    | nil => rfl
    | cons y ys => exact absurd hba (by simp [natLexLe])
  | cons x xs ih =>
    intro b hab hba
    cases b with
    | nil => exact absurd hab (by simp [natLexLe])
    | cons y ys =>
      simp only [natLexLe] at hab hba
      rcases Nat.lt_trichotomy x y with h | h | h
      · rw [if_neg (by omega), if_pos h] at hba
        exact absurd hba (by simp)
      · subst h
        simp only [lt_self_iff_false, if_false] at hab hba
        rw [ih ys hab hba]
      · rw [if_neg (by omega), if_pos h] at hab
        exact absurd hab (by simp)

theorem natLexLe_trans : ∀ a b c : List Nat,
    natLexLe a b = true → natLexLe b c = true → natLexLe a c = true := by
  intro a
  induction a with
  | nil => intro b c _ _; rfl
  | cons x xs ih =>
    intro b c hab hbc
    cases b with
    | nil => exact absurd hab (by simp [natLexLe])
    | cons y ys =>
      cases c with
      | nil => exact absurd hbc (by simp [natLexLe])
      | cons z zs =>
        simp only [natLexLe] at hab hbc ⊢
        rcases Nat.lt_trichotomy x y with hxy | hxy | hxy
        · rcases Nat.lt_trichotomy y z with hyz | hyz | hyz
          · rw [if_pos (by omega)]
          · subst hyz
            rw [if_pos hxy]
          · rw [if_neg (by omega), if_pos hyz] at hbc
            exact absurd hbc (by simp)
        · subst hxy
          simp only [lt_self_iff_false, if_false] at hab
          rcases Nat.lt_trichotomy x z with hxz | hxz | hxz
          · rw [if_pos hxz]
          · subst hxz
            simp only [lt_self_iff_false, if_false] at hbc ⊢
            exact ih ys zs hab hbc
          · rw [if_neg (by omega), if_pos hxz] at hbc
            exact absurd hbc (by simp)
        · rw [if_neg (by omega), if_pos hxy] at hab
          exact absurd hab (by simp)

theorem char_toNat_inj {a b : Char} (h : a.toNat = b.toNat) : a = b := by
  apply Char.ext
  exact UInt32.ext (by simpa [Char.toNat] using h)

theorem strB_inj {a b : String} (h : strB a = strB b) : a = b := by
  apply String.ext
  exact List.map_injective_iff.mpr (fun x y hxy => char_toNat_inj hxy) h

theorem strLeB_total (a b : String) : strLeB a b = true ∨ strLeB b a = true :=
  natLexLe_total (strB a) (strB b)

theorem strLeB_antisymm {a b : String} (hab : strLeB a b = true) (hba : strLeB b a = true) :
    a = b :=
  strB_inj (natLexLe_antisymm (strB a) (strB b) hab hba)

theorem strLeB_trans {a b c : String} (hab : strLeB a b = true) (hbc : strLeB b c = true) :
    strLeB a c = true :=
  natLexLe_trans (strB a) (strB b) (strB c) hab hbc

theorem insSorted_perm (x : String) (l : List String) : (insSorted x l).Perm (x :: l) := by
  induction l with
  | nil => exact List.Perm.refl _
  | cons y ys ih =>
    show (if strLeB x y then x :: y :: ys else y :: insSorted x ys).Perm (x :: y :: ys)
    by_cases h : strLeB x y = true
    · rw [if_pos h]
    · rw [if_neg h]
      exact List.Perm.trans (List.Perm.cons y ih) (List.Perm.swap x y ys)

theorem sortK_perm (l : List String) : (sortK l).Perm l := by
  induction l with
  | nil => exact List.Perm.refl _
  | cons x xs ih =>
    exact List.Perm.trans (insSorted_perm x (sortK xs)) (List.Perm.cons x ih)

theorem insSorted_sorted (x : String) (l : List String)
    (hl : l.Sorted (fun a b => strLeB a b = true)) :
    (insSorted x l).Sorted (fun a b => strLeB a b = true) := by
  induction l with
  | nil => simp [insSorted]
  | cons y ys ih =>
    rw [List.sorted_cons] at hl
    show (if strLeB x y then x :: y :: ys else y :: insSorted x ys).Sorted
      (fun a b => strLeB a b = true)
    by_cases h : strLeB x y = true
    · rw [if_pos h, List.sorted_cons]
      refine ⟨?_, ?_⟩
      · intro b hb
        rcases List.mem_cons.mp hb with rfl | hb2
        · exact h
        · exact strLeB_trans h (hl.1 b hb2)
      · rw [List.sorted_cons]
        exact hl
    · rw [if_neg h, List.sorted_cons]
      refine ⟨?_, ih hl.2⟩
      intro b hb
      have hyx : strLeB y x = true := by
        rcases strLeB_total x y with h2 | h2
        · exact absurd h2 h
        · exact h2
      have hb2 : b ∈ x :: ys := (insSorted_perm x ys).mem_iff.mp hb
      rcases List.mem_cons.mp hb2 with rfl | hmem
      · exact hyx
      · exact hl.1 b hmem

theorem sortK_sorted (l : List String) : (sortK l).Sorted (fun a b => strLeB a b = true) := by
  induction l with
  | nil => simp [sortK]
  | cons x xs ih => exact insSorted_sorted x (sortK xs) ih

instance : IsAntisymm String (fun a b => strLeB a b = true) :=
  ⟨fun _ _ hab hba => strLeB_antisymm hab hba⟩

/-- Two permutations of the same keys sort to the same list. -/
theorem sortK_eq_of_perm {l1 l2 : List String} (h : l1.Perm l2) : sortK l1 = sortK l2 := by
  apply List.eq_of_perm_of_sorted (r := fun a b => strLeB a b = true)
  · exact List.Perm.trans (sortK_perm l1) (List.Perm.trans h (sortK_perm l2).symm)
  · exact sortK_sorted l1
  · exact sortK_sorted l2

/-! ### Records and the CREATE TABLE builder

A record (Python dict) is modelled as an association list in iteration
order; dict keys are unique, which theorems carry as a Nodup hypothesis.
Dict lookup always succeeds on the keys of the dict; the default of the
lookup of the model is unreachable there. -/

def lookupV : List (String × PyVal) → String → PyVal
  | [], _ => .pyNone
  | (k, v) :: r, key => if k = key then v else lookupV r key

/-- Python f-string rendering of the inferred type (None prints as the
text None). -/
def optTypeStr : Option String → String
  | some t => t
  | none => "None"

/-- The for-loop of `appendType` over the (possibly sorted) keys: each
column contributes a quoted name and its inferred type; a TypeError from
`detectType` propagates from the first offending column. -/
def buildParts (cfg : IodbCfg) (indict : List (String × PyVal)) :
    List String → Except String (List String)
  | [] => .ok []
  | key :: rest => do
    let valtype ← detectType cfg (lookupV indict key) cfg.driver
    let tail ← buildParts cfg indict rest
    pure (("\x27" ++ key ++ "\x27 " ++ optTypeStr valtype) :: tail)

/-- Shallow embedding of `iodb.appendType` (src/sqlWrapper.py 544-558). -/
def appendType (cfg : IodbCfg) (indict : List (String × PyVal))
    (useTypes : Bool) (sortBefore : Bool) : Except String String :=
  let keys0 := indict.map Prod.fst
  let keys := if sortBefore then sortK keys0 else keys0
  if useTypes = false ∧ cfg.driver = "sqlite" then
    .ok (String.intercalate ", " keys)
  else do
    let parts ← buildParts cfg indict keys
    pure (String.intercalate ", " parts)

/-- Shallow embedding of `iodb.createTable` (src/sqlWrapper.py 602-643),
up to the generated query text (execution and commit are driver calls
outside this core).  With a driver other than sqlite or postgre the
query variable is never assigned and Python raises; that arm is an
error. -/
def createTable (cfg : IodbCfg) (tablename : String) (indict : List (String × PyVal))
    (useTypes : Bool) (before after : String) (sortBefore : Bool) :
    Except String String := do
  let parameterNames ← appendType cfg indict useTypes sortBefore
  if cfg.driver = "sqlite" then
    pure ("CREATE TABLE IF NOT EXISTS " ++ tablename ++ " ("
      ++ (before ++ parameterNames ++ after) ++ ")")
  else if cfg.driver = "postgre" then
    pure ("CREATE TABLE IF NOT EXISTS " ++ tablename ++ " (" ++ cfg.rowid
      ++ " SERIAL PRIMARY KEY, " ++ (before ++ parameterNames ++ after) ++ ")")
  else
    .error "NameError: name query is not defined"

/-- Lookup is invariant under permutation of a record with unique keys. -/
theorem lookupV_perm {l1 l2 : List (String × PyVal)} (h : l1.Perm l2)
    (hnd : (l1.map Prod.fst).Nodup) (k : String) : lookupV l1 k = lookupV l2 k := by
  induction h with
  | nil => rfl
  | cons p _ ih =>
    obtain ⟨pk, pv⟩ := p
    show (if pk = k then pv else lookupV _ k) = (if pk = k then pv else lookupV _ k)
    by_cases hk : pk = k
    · rw [if_pos hk, if_pos hk]
    · rw [if_neg hk, if_neg hk]
      exact ih (by simpa using (List.nodup_cons.mp (by simpa using hnd)).2)
  | swap p q l =>
    obtain ⟨pk, pv⟩ := p
    obtain ⟨qk, qv⟩ := q
    have hne : qk ≠ pk := by
      simp only [List.map_cons, List.nodup_cons, List.mem_cons] at hnd
      exact fun hcon => hnd.1 (Or.inl hcon)
    show (if qk = k then qv else if pk = k then pv else lookupV l k)
      = (if pk = k then pv else if qk = k then qv else lookupV l k)
    by_cases hq : qk = k
    · rw [if_pos hq, if_neg (by rw [← hq]; exact fun hcon => hne hcon.symm), if_pos hq]
    · rw [if_neg hq]
      by_cases hp : pk = k
      · rw [if_pos hp, if_pos hp]
      · rw [if_neg hp, if_neg hp, if_neg hq]
  | trans h12 h23 ih12 ih23 =>
    rw [ih12 hnd, ih23 ((h12.map Prod.fst).nodup_iff.mp hnd)]

theorem buildParts_congr {cfg : IodbCfg} {l1 l2 : List (String × PyVal)}
    (hl : ∀ k, lookupV l1 k = lookupV l2 k) (keys : List String) :
    buildParts cfg l1 keys = buildParts cfg l2 keys := by
  induction keys with
  | nil => rfl
  | cons key rest ih =>
    show (do
      let valtype ← detectType cfg (lookupV l1 key) cfg.driver
      let tail ← buildParts cfg l1 rest
      pure (("\x27" ++ key ++ "\x27 " ++ optTypeStr valtype) :: tail))
      = (do
      let valtype ← detectType cfg (lookupV l2 key) cfg.driver
      let tail ← buildParts cfg l2 rest
      pure (("\x27" ++ key ++ "\x27 " ++ optTypeStr valtype) :: tail))
    rw [hl key, ih]

/-- Core determinism fact: `appendType` with sorting enabled depends only
on the key-value pairs of the record, not their iteration order. -/
theorem appendType_perm (cfg : IodbCfg) (useTypes : Bool)
    {l1 l2 : List (String × PyVal)} (h : l1.Perm l2)
    (hnd : (l1.map Prod.fst).Nodup) :
    appendType cfg l1 useTypes true = appendType cfg l2 useTypes true := by
  have hkeys : sortK (l1.map Prod.fst) = sortK (l2.map Prod.fst) :=
    sortK_eq_of_perm (h.map Prod.fst)
  unfold appendType
  simp only [if_true]
  rw [hkeys, buildParts_congr (lookupV_perm h hnd)]

/-! ### The external-array read path (iodb._typecast_array_ext, 294-313)

The ambient filesystem is modelled as an association list from path to
file content, passed explicitly.  The NULL fast path (lines 296-297)
returns None before anything else.  On every non-NULL reference the
function computes the file name (line 304) and then evaluates
`os.path.isfile` - at line 305 when loadZipped holds, otherwise at line
308 after the short-circuit - but `import os` is commented out (line
51), so the read raises NameError for every filesystem state; the
gzip/np.load branches and the FileNotFoundError raise (lines 306-311)
are unreachable.  The sqlite converter receives the reference as bytes
and utf-8 decodes it; the postgres converter receives it through
`STRING(value, cur)`; both preserve the code points, so the reference
arrives here as a `String`. -/

abbrev Fs := List (String × List Nat)

def typecast_array_ext (cfg : IodbCfg) (fs : Fs) (value : Option String) (cur : Bool) :
    Except String (Option NpArray) :=
  match value, cur with
  | none, true => .ok none
  | none, false => .error "AttributeError: NoneType object has no attribute decode"
  | some _, _ => .error "NameError: name \x27os\x27 is not defined"

/-! ### The advisory lock (iodb.lock, src/sqlWrapper.py 417-451)

The ambient filesystem (the set of existing marker files) is passed
explicitly.  The docstring of `lock` documents the return values None
(non-sqlite), the lockfile name (truthy, success) and False; LockRet is
that domain.  On the sqlite branch the lockfile name is computed (line
430) and the polling loop is entered, but its first test
`os.path.exists(lockfilename)` (line 434) references the unbound name
os (`import os` is commented out, line 51): every call raises
NameError, creates no marker file, and leaves the filesystem unchanged.
The mknod/sleep/timeout body of the loop (lines 434-449) is
unreachable.  `iodb.release` (line 469) fails the same way and no claim
needs it. -/

inductive LockRet where
  | pyNone
  | pyFalse
  | pyStr (s : String)
deriving DecidableEq

def lock (driver fname suffix : String) (repeatMs timeoutCounter : Nat)
    (fs : List String) : Except String (LockRet × List String) :=
  if driver = "sqlite" then
    .error "NameError: name \x27os\x27 is not defined"
  else
    .ok (.pyNone, fs)

/-! ### The filename allocator (iodb._getUniqueName, src/sqlWrapper.py 315-326)

`_getUniqueName` would format date, time, hostname, pid and the session
counter and then increment the counter, but its first statement
`hostname = socket.gethostname()` (line 317) references the unbound
name socket (`import socket` is commented out, line 50): every call
raises NameError before any name is formatted, and the counter is never
incremented.  Moreover a session that would use the allocator (storage
extern or mixed) cannot even be constructed: `iodbInit` raises
NameError at line 189. -/

def getUniqueName (counter : Nat) : Except String (List Nat × Nat) :=
  .error "NameError: name \x27socket\x27 is not defined"

/-! ### Concrete configurations used by witnesses and counterexamples -/

def cfgSqliteIntern : IodbCfg :=
  ⟨"sqlite", "intern", "./", false, false, "ARRAY", "ARRAY_EXT", "rowid"⟩

theorem cfgSqliteIntern_init :
    iodbInit "sqlite" "intern" "./" false false = .ok (some cfgSqliteIntern) := rfl

/-! ### Claim theorems -/

/-- Claim C1: for every supported numpy array - including shape () and
zero-length shapes - decoding the bytes produced by the embedded-array
encoder yields the array back bit for bit (same dtype, same order flag,
same shape, same element bytes).  The hypotheses state the numpy array
invariant (the data buffer holds exactly itemsize times the product of
the shape) and that the header fits the two-byte length field of format
version 1. -/
theorem C1_roundtrip (x : NpArray) (cur : Bool)
    (hdata : x.data.length = x.descr.itemsize * x.shape.prod)
    (hsmall : (npyHeader x).length < 65536) :
    typecast_array (some (adapt_array x)) cur = .ok (some x) := by
  cases cur
  all_goals
    show (npyDecode (npyEncode x)).map some = _
    rw [npy_roundtrip x hdata hsmall]
    rfl

/-- Witness array for C1: a 0-dimensional float64 scalar, shape (). -/
def npW : NpArray := ⟨.f8, false, [], [0, 0, 0, 0, 0, 0, 69, 64]⟩

/-- Witness for C1 at the 0-dimensional array npW. -/
theorem C1_roundtrip_witness :
    npW.data.length = npW.descr.itemsize * npW.shape.prod ∧
    (npyHeader npW).length < 65536 ∧
    typecast_array (some (adapt_array npW)) false = .ok (some npW) :=
  ⟨by decide, by decide, C1_roundtrip npW false (by decide) (by decide)⟩

/-- Claim C2 (code bug): type inference on a plain array yields the
embedded-array column type, but inference on an ndarray_ext-wrapped
array RAISES TypeError instead of returning the external-array-reference
type: ndarray_ext does not subclass np.ndarray, so the
`isinstance(value, np.ndarray)` gate never admits it and the inner
`type(value) == ndarray_ext` test (line 521) is unreachable. -/
theorem C2_ndarray_ext_dispatch :
    (∀ (cfg : IodbCfg) (a : NpArray) (db : String),
      detectType cfg (.ndarrayExt a) db = .error (unrecognizedMsg (.ndarrayExt a))) ∧
    (∀ (cfg : IodbCfg) (a : NpArray) (db : String),
      detectType cfg (.ndarray a) db = .ok (some cfg.arrayType)) :=
  ⟨fun _ _ _ => rfl, fun _ _ _ => rfl⟩

/-- Claim C3 (code bug): acquire on a path whose marker file is absent
never creates the marker and never returns the Acquired result - for
every pollIntervalMs and maxAttempts the sqlite branch raises NameError
at its first existence test (line 434), because `import os` is commented
out (line 51); the marker file set is returned unchanged. -/
theorem C3_lock_raises :
    (∀ (fname suffix : String) (repeatMs tc : Nat) (fs : List String),
      lock "sqlite" fname suffix repeatMs tc fs
        = .error "NameError: name \x27os\x27 is not defined") ∧
    lock "sqlite" "db.sqlite" ".lock" 0 1000 []
      = .error "NameError: name \x27os\x27 is not defined" :=
  ⟨fun _ _ _ _ _ => rfl, rfl⟩

/-- Counterexample to claim C4 as stated: on the sqlite dialect the
boolean branch renders as INTEGER, so infer(true) and infer(1) yield the
SAME type name. -/
theorem C4_counterexample :
    detectType cfgSqliteIntern (.bool true) "sqlite" = .ok (some "INTEGER") ∧
    detectType cfgSqliteIntern (.int 1) "sqlite" = .ok (some "INTEGER") ∧
    detectType cfgSqliteIntern (.bool true) "sqlite"
      = detectType cfgSqliteIntern (.int 1) "sqlite" :=
  ⟨rfl, rfl, rfl⟩

/-- Claim C4 (amended): the boolean branch wins over the integer branch
for both dialects; on postgres it yields BOOL, distinct from the INTEGER
yielded for 1, while on sqlite both render as INTEGER. -/
theorem C4_type_precedence :
    (∀ cfg : IodbCfg,
      detectType cfg (.bool true) "postgre" = .ok (some "BOOL") ∧
      detectType cfg (.int 1) "postgre" = .ok (some "INTEGER") ∧
      ("BOOL" : String) ≠ "INTEGER") ∧
    (∀ cfg : IodbCfg,
      detectType cfg (.bool true) "sqlite" = .ok (some "INTEGER") ∧
      detectType cfg (.int 1) "sqlite" = .ok (some "INTEGER")) :=
  ⟨fun _ => ⟨rfl, rfl, by decide⟩, fun _ => ⟨rfl, rfl⟩⟩

/-- Claim C5: inference on a one-element list or tuple equals inference
on the single element, and a list or tuple with two or more elements
raises the TypeError whose message names the offending value and its
runtime type. -/
theorem C5_sequence_unwrap :
    (∀ (cfg : IodbCfg) (v : PyVal) (db : String),
      detectType cfg (.list [v]) db = detectType cfg v db ∧
      detectType cfg (.tuple [v]) db = detectType cfg v db) ∧
    (∀ (cfg : IodbCfg) (a b : PyVal) (rest : List PyVal) (db : String),
      detectType cfg (.list (a :: b :: rest)) db
        = .error (unrecognizedMsg (.list (a :: b :: rest))) ∧
      detectType cfg (.tuple (a :: b :: rest)) db
        = .error (unrecognizedMsg (.tuple (a :: b :: rest)))) :=
  ⟨fun _ _ _ => ⟨rfl, rfl⟩, fun _ _ _ _ _ => ⟨rfl, rfl⟩⟩

/-- Claim C6 (code bug): on the external read path every non-NULL read
raises NameError - the existence tests of lines 305/308 reference the
unbound name os - for every filesystem state and session configuration,
compressed reads included: the compressed sibling is never attempted,
there is no fallback, and the claimed FileNotFoundError (line 311) is
unreachable.  No array, default or otherwise, is ever returned. -/
theorem C6_read_raises :
    ∀ (cfg : IodbCfg) (fs : Fs) (v : String) (cur : Bool),
      typecast_array_ext cfg fs (some v) cur
        = .error "NameError: name \x27os\x27 is not defined" := by
  intro cfg fs v cur
  cases cur
  all_goals rfl

/-- Claim C7 (code bug): no acquire call ever yields the claimed
Acquired, Busy or TimeoutExceeded results - with the marker absent,
with the marker held at pollIntervalMs = 0, and with the marker held at
pollIntervalMs = 1 with maxAttempts = 2 alike, the call raises
NameError at its first existence test (line 434, os unbound), so the
Acquired-then-Busy sequence and the bounded timeout are unreachable in
the source. -/
theorem C7_mutual_exclusion_raises :
    lock "sqlite" "db.sqlite" ".lock" 0 1000 []
      = .error "NameError: name \x27os\x27 is not defined" ∧
    lock "sqlite" "db.sqlite" ".lock" 0 1000 ["db.sqlite.lock"]
      = .error "NameError: name \x27os\x27 is not defined" ∧
    lock "sqlite" "db.sqlite" ".lock" 1 2 ["db.sqlite.lock"]
      = .error "NameError: name \x27os\x27 is not defined" :=
  ⟨rfl, rfl, rfl⟩

/-- Claim C8 (code bug): the allocator never produces a name - every
`_getUniqueName` call raises NameError at line 317 (socket unbound)
before formatting anything or touching the counter, and a session with
storage extern or mixed (the modes that allocate) already raises
NameError during construction (line 189, os unbound), read-only or
not. -/
theorem C8_allocator_raises :
    (∀ counter : Nat,
      getUniqueName counter = .error "NameError: name \x27socket\x27 is not defined") ∧
    (∀ (driver spath : String) (loadZipped readOnly : Bool),
      iodbInit driver "extern" spath loadZipped readOnly
        = .error "NameError: name \x27os\x27 is not defined" ∧
      iodbInit driver "mixed" spath loadZipped readOnly
        = .error "NameError: name \x27os\x27 is not defined") :=
  ⟨fun _ => rfl, fun _ _ _ _ => ⟨by rw [iodbInit, if_pos (Or.inl rfl)],
    by rw [iodbInit, if_pos (Or.inr rfl)]⟩⟩

/-- Claim C9: with column sorting enabled the generated CREATE TABLE
text depends only on the key-value pairs of the record, not on their
iteration order, and the record b=1, a=x yields the columns in sorted
order a, b. -/
theorem C9_createTable_det (cfg : IodbCfg) (tablename : String) (useTypes : Bool)
    (before after : String) (r1 r2 : List (String × PyVal))
    (hperm : r1.Perm r2) (hnd : (r1.map Prod.fst).Nodup) :
    createTable cfg tablename r1 useTypes before after true
      = createTable cfg tablename r2 useTypes before after true ∧
    createTable cfgSqliteIntern "tbl" [("b", .int 1), ("a", .str "x")] true "" "" true
      = .ok "CREATE TABLE IF NOT EXISTS tbl (\x27a\x27 TEXT, \x27b\x27 INTEGER)" := by
  constructor
  · unfold createTable
    rw [appendType_perm cfg useTypes hperm hnd]
  · rfl

/-- Witness for C9: the two iteration orders of the same record generate
identical CREATE TABLE text. -/
theorem C9_createTable_det_witness :
    createTable cfgSqliteIntern "tbl" [("b", .int 1), ("a", .str "x")] true "" "" true
      = createTable cfgSqliteIntern "tbl" [("a", .str "x"), ("b", .int 1)] true "" "" true :=
  (C9_createTable_det cfgSqliteIntern "tbl" true "" ""
    [("b", .int 1), ("a", .str "x")] [("a", .str "x"), ("b", .int 1)]
    (List.Perm.swap ("a", PyVal.str "x") ("b", PyVal.int 1) []) (by decide)).1

/-- Claim C10: when the driver supplies a cursor (the postgres read
path), both converters map a NULL column to None immediately: no bytes
are decoded, no filesystem entry is consulted (the external result is
the same for every filesystem), and no error is raised. -/
theorem C10_null_passthrough :
    typecast_array none true = .ok none ∧
    (∀ (cfg : IodbCfg) (fs : Fs), typecast_array_ext cfg fs none true = .ok none) :=
  ⟨rfl, fun _ _ => rfl⟩

end SqlWrapper
